import Mathlib

/-!
Shallow embedding of buildbot's build-request collapsing engine
(`master/buildbot/process/buildrequest.py`): the data model seen through the
data API, the default collapse strategy `BuildRequest.canBeCollapsed`, the
orchestration `BuildRequestCollapser.collapse`, the view assembly
`BuildRequest._make_br` and the merge helpers.

Store reads (`master.data.get(...)`, `master.db.buildsets.*`) are modelled as
fields of a `Master` record mapping identifiers to the records the store would
return; Python dictionaries are modelled as association lists with distinct
keys, with explicit lookup-based dictionary equality.
-/

/-- Modelled from the spec: the `SKIPPED` result code used when completing a
collapsed request (`buildbot.process.results` is outside the excerpted files);
its concrete value is irrelevant to every theorem below, which treats it
symbolically. -/
def SKIPPED : Nat := 3

/-- A patch attached to a sourcestamp (`ss['patch']` in the data API).
Only its presence or absence matters to the collapsing logic. -/
structure Patch where
  level : Nat
  body : String
  subdir : String
  author : String
  comment : String
  deriving Repr, DecidableEq

/-- A change record attached to a sourcestamp; the collapsing logic only ever
tests whether the list of changes is empty. -/
structure Change where
  changeid : Nat
  author : String
  deriving Repr, DecidableEq

/-- One sourcestamp record as returned by the data API inside a buildset
(`buildset['sourcestamps']` elements). `branch` and `revision` are nullable. -/
structure SourceStamp where
  ssid : Nat
  codebase : String
  repository : String
  branch : Option String
  project : String
  revision : Option String
  patch : Option Patch
  deriving Repr, DecidableEq

/-- A buildset as returned by `master.data.get(('buildsets', bsid))`; only its
sourcestamp list is consumed by the collapsing logic. -/
structure Buildset where
  sourcestamps : List SourceStamp
  deriving Repr, DecidableEq

/-- A buildset row as returned by `master.db.buildsets.getBuildset`; `_make_br`
reads the reason from it. `None` (a dangling buildset reference) is modelled by
the `Master` field returning `Option.none`. -/
structure DbBuildset where
  reason : String
  deriving Repr, DecidableEq

/-- Buildset properties, `name -> (value, source)`: the Python dict is
modelled as an association list `(name, value, source)` with distinct keys. -/
abbrev BuildsetProps := List (String × String × String)

/-- A build-request dictionary as returned by
`master.data.get(('buildrequests', brid))` and by the unclaimed-request
listing; only these fields are consumed by the collapser. -/
structure BrDict where
  buildrequestid : Nat
  buildsetid : Nat
  builderid : Nat
  submitted_at : Nat
  deriving Repr, DecidableEq

/-- The read-only store interface consumed by the collapsing logic: each field
models one data/db API endpoint, mapping an identifier to the record the store
would return. -/
structure Master where
  /-- `master.data.get(('buildsets', str(bsid)))` -/
  buildsets : Nat → Buildset
  /-- `master.data.get(('sourcestamps', ssid, 'changes'))` -/
  sourcestamp_changes : Nat → List Change
  /-- `master.data.get(('buildsets', str(bsid), 'properties'))`, also
  `master.db.buildsets.getBuildsetProperties(bsid)` -/
  buildset_properties : Nat → BuildsetProps
  /-- `master.db.buildsets.getBuildset(bsid)`; `Option.none` models a request
  referencing a buildset that does not exist -/
  db_buildsets : Nat → Option DbBuildset

/-- Python dict insertion for a string-keyed dict built from a generator:
a later entry with an already-present key overwrites the stored value. -/
def dictInsert {α : Type} (d : List (String × α)) (k : String) (v : α) :
    List (String × α) :=
  if d.any (fun p => p.1 == k) then
    d.map (fun p => if p.1 == k then (k, v) else p)
  else
    d ++ [(k, v)]

/-- `dict((ss['codebase'], ss) for ss in buildset['sourcestamps'])`. -/
def sourcesByCodebase (sourcestamps : List SourceStamp) :
    List (String × SourceStamp) :=
  sourcestamps.foldl (fun d ss => dictInsert d ss.codebase ss) []

/-- The per-codebase sourcestamp dictionary of a buildset, as built at the top
of `canBeCollapsed`. -/
def buildsetSources (master : Master) (bsid : Nat) : List (String × SourceStamp) :=
  sourcesByCodebase (master.buildsets bsid).sourcestamps

/-- `set(selfSources) != set(otherSources)` negated: the two dictionaries have
the same key set. -/
def keySetEq (a b : List (String × SourceStamp)) : Bool :=
  a.all (fun p => b.any (fun q => q.1 == p.1)) &&
    b.all (fun p => a.any (fun q => q.1 == p.1))

/-- Python `==` on two string-to-string dicts represented as association lists
with distinct keys: lookups agree in both directions. -/
def dictEq (a b : List (String × String)) : Bool :=
  a.all (fun p => List.lookup p.1 b == some p.2) &&
    b.all (fun p => List.lookup p.1 a == some p.2)

/-- `BuildRequest.filter_buildset_props_for_collapsing`: keep only the
properties whose source is `"Scheduler"` and whose name is not literally
`scheduler`, dropping the source component. -/
def filter_buildset_props_for_collapsing (bs_props : BuildsetProps) :
    List (String × String) :=
  (bs_props.filter (fun p => p.1 != "scheduler" && p.2.2 == "Scheduler")).map
    (fun p => (p.1, p.2.1))

/-- The body of `canBeCollapsed`'s per-codebase loop (buildrequest.py lines
288-317) for one shared codebase: repository, branch and project must match,
anything with a patch is refused, then the change lists are compared, falling
back to revision equality when neither side has changes. -/
def canBeCollapsedCodebase (master : Master) (selfSS otherSS : SourceStamp) :
    Bool :=
  if selfSS.repository != otherSS.repository then false
  else if selfSS.branch != otherSS.branch then false
  else if selfSS.project != otherSS.project then false
  else if selfSS.patch.isSome || otherSS.patch.isSome then false
  else
    if !(master.sourcestamp_changes selfSS.ssid).isEmpty &&
        !(master.sourcestamp_changes otherSS.ssid).isEmpty then true
    else if !(master.sourcestamp_changes selfSS.ssid).isEmpty &&
        (master.sourcestamp_changes otherSS.ssid).isEmpty then false
    else if (master.sourcestamp_changes selfSS.ssid).isEmpty &&
        !(master.sourcestamp_changes otherSS.ssid).isEmpty then false
    else selfSS.revision == otherSS.revision

/-- The check applied to one entry of the new request's sourcestamp dictionary:
look the codebase up in the old request's dictionary (`otherSources[c]`) and
run the per-codebase comparison. The `Option.none` branch is unreachable under
the preceding key-set equality guard (Python would raise `KeyError`). -/
def codebaseCheck (master : Master) (otherSources : List (String × SourceStamp))
    (p : String × SourceStamp) : Bool :=
  match List.lookup p.1 otherSources with
  | some otherSS => canBeCollapsedCodebase master p.2 otherSS
  | Option.none => false

/-- The buildset-property comparison at the end of `canBeCollapsed`: the two
filtered property dictionaries are equal. -/
def schedulerPropsEq (master : Master) (new_bsid old_bsid : Nat) : Bool :=
  dictEq
    (filter_buildset_props_for_collapsing (master.buildset_properties new_bsid))
    (filter_buildset_props_for_collapsing (master.buildset_properties old_bsid))

/-- `BuildRequest.canBeCollapsed(master, new_br, old_br)`: buildbot's default
collapse strategy, mirroring the source's sequence of early returns. -/
def canBeCollapsed (master : Master) (new_br old_br : BrDict) : Bool :=
  -- short-circuit: if these are for the same buildset, collapse away
  if new_br.buildsetid == old_br.buildsetid then true
  -- the new buildrequest must actually be newer than the old build request
  else if new_br.buildrequestid < old_br.buildrequestid then false
  -- if the sets of codebases do not match, we can't collapse
  else if !(keySetEq (buildsetSources master new_br.buildsetid)
                    (buildsetSources master old_br.buildsetid)) then false
  -- the per-codebase loop: any failing codebase returns false
  else if !((buildsetSources master new_br.buildsetid).all
      (codebaseCheck master (buildsetSources master old_br.buildsetid))) then false
  -- don't collapse if the properties injected by the scheduler differ
  else if !(schedulerPropsEq master new_br.buildsetid old_br.buildsetid) then false
  else true

/-- A Python value returned by a configured `collapseRequestsFn`; the
orchestrator compares the returned value against the literal boolean `True`
with an identity test (`is True`). -/
inductive PyValue where
  | bool (b : Bool)
  | int (n : Int)
  | str (s : String)
  | none
  deriving Repr, DecidableEq

/-- Python's `canCollapse is True`: only the boolean `True` passes; every other
value, truthy or not, fails the identity test. -/
def pyIsTrue : PyValue → Bool
  | PyValue.bool true => true
  | _ => false

/-- A configured builder object as found in `master.botmaster.builders`;
`collapseRequestsFn` models `bldr.getCollapseRequestsFn()`, which may be null
(collapsing disabled). The Python function receives `(master, bldr, br,
unclaim_br)`; master and builder are fixed per environment, so the model keeps
only the two request arguments. -/
structure Builder where
  collapseRequestsFn : Option (BrDict → BrDict → PyValue)

/-- The environment `BuildRequestCollapser.collapse` runs in: each field models
one store or botmaster access, including the outcome of the atomic claim
attempt for each request identifier. -/
structure CollapseEnv where
  /-- `master.data.get(('buildrequests', brid))` -/
  getBuildrequest : Nat → BrDict
  /-- the composition of `master.data.get(('builders', builderid))` and
  `master.botmaster.builders.get(name)`; `Option.none` models a missing
  builder -/
  getBuilder : Nat → Option Builder
  /-- `_getUnclaimedBrs(builderid)`: the unclaimed requests of the builder,
  already sorted by `submitted_at` -/
  unclaimedBrs : Nat → List BrDict
  /-- `master.data.updates.claimBuildRequests([brid])`: whether the atomic
  claim attempt on this request succeeds -/
  claimBuildRequests : Nat → Bool

/-- `brids_to_collapse.add(x)`: adding to a Python set, modelled as a
duplicate-free list in insertion order. -/
def setInsert (s : List Nat) (x : Nat) : List Nat :=
  if x ∈ s then s else s ++ [x]

/-- The inner loop step of `collapse`: skip the new request itself, then add
the candidate to the pending set only when the collapse function returns
exactly `True`. -/
def candidateStep (br : BrDict) (collapseRequestsFn : BrDict → BrDict → PyValue)
    (acc : List Nat) (unclaim_br : BrDict) : List Nat :=
  if unclaim_br.buildrequestid == br.buildrequestid then acc
  else if pyIsTrue (collapseRequestsFn br unclaim_br) then
    setInsert acc unclaim_br.buildrequestid
  else acc

/-- One iteration of `collapse`'s outer loop for a single new request id:
resolve the builder and its collapse function, list the unclaimed requests,
and scan them; a missing builder, missing collapse function or empty unclaimed
list leaves the pending set unchanged. -/
def collapseOneBrid (env : CollapseEnv) (brids_to_collapse : List Nat)
    (brid : Nat) : List Nat :=
  let br := env.getBuildrequest brid
  match env.getBuilder br.builderid with
  | Option.none => brids_to_collapse
  | some bldr =>
    match bldr.collapseRequestsFn with
    | Option.none => brids_to_collapse
    | some collapseRequestsFn =>
      let unclaim_brs := env.unclaimedBrs br.builderid
      if unclaim_brs.isEmpty then brids_to_collapse
      else unclaim_brs.foldl (candidateStep br collapseRequestsFn) brids_to_collapse

/-- The candidate-gathering phase of `BuildRequestCollapser.collapse`: the
pending removal set accumulated over all new request ids. -/
def collapsePhase1 (env : CollapseEnv) (brids : List Nat) : List Nat :=
  brids.foldl (collapseOneBrid env) []

/-- The finalisation phase of `BuildRequestCollapser.collapse`: attempt the
atomic claim on every pending id; on success complete the request with
`SKIPPED` and record it in the returned list. The second component is the log
of `completeBuildRequests` calls made. -/
def collapseFinalize (env : CollapseEnv) (brids_to_collapse : List Nat) :
    List Nat × List (Nat × Nat) :=
  brids_to_collapse.foldl
    (fun acc brid =>
      if env.claimBuildRequests brid then
        (acc.1 ++ [brid], acc.2 ++ [(brid, SKIPPED)])
      else acc)
    ([], [])

/-- `BuildRequestCollapser.collapse(brids)`: gather the pending removal set,
then claim-and-skip each member, returning the collapsed ids together with the
log of completion calls. -/
def BuildRequestCollapser.collapse (env : CollapseEnv) (brids : List Nat) :
    List Nat × List (Nat × Nat) :=
  collapseFinalize env (collapsePhase1 env brids)

/-- A `BuildRequestModel` row as returned by
`BuildRequestsConnectorComponent.getBuildRequest`; `submitted_at` is the epoch
timestamp of the (possibly null) datetime. -/
structure BuildRequestModel where
  buildrequestid : Nat
  buildsetid : Nat
  buildername : String
  builderid : Nat
  priority : Nat
  submitted_at : Option Nat
  waited_for : Bool
  deriving Repr, DecidableEq

/-- A `TempSourceStamp` of the assembled view: the raw sourcestamp record
together with the change list attached by `_make_br`. -/
structure TempSourceStamp where
  ssdict : SourceStamp
  changes : List Change
  deriving Repr, DecidableEq

/-- The assembled `BuildRequest` object built by `_make_br`: identifying
fields, reason, property bag and one `TempSourceStamp` per codebase. -/
structure BuildRequestView where
  id : Nat
  bsid : Nat
  buildername : String
  builderid : Nat
  priority : Nat
  submittedAt : Option Nat
  waitedFor : Bool
  reason : String
  properties : BuildsetProps
  sources : List (String × TempSourceStamp)
  deriving Repr, DecidableEq

/-- `BuildRequest._make_br(brid, brdict, master)`: assemble the view from the
store. The two `assert` statements of the source (a dangling buildset
reference, a buildset with no sourcestamps) become `Except.error`. -/
def BuildRequest._make_br (master : Master) (brid : Nat)
    (brdict : BuildRequestModel) : Except String BuildRequestView :=
  -- fetch the buildset to get the reason
  match master.db_buildsets brdict.buildsetid with
  | Option.none => Except.error "assert buildset: schema should guarantee this"
  | some buildset =>
    -- fetch the buildset properties
    let buildset_properties := master.buildset_properties brdict.buildsetid
    -- make a fake sources dict (temporary)
    let bsdata := master.buildsets brdict.buildsetid
    if bsdata.sourcestamps.isEmpty then
      Except.error "assert: buildset must have at least one sourcestamp"
    else
      Except.ok
        { id := brid
          bsid := brdict.buildsetid
          buildername := brdict.buildername
          builderid := brdict.builderid
          priority := brdict.priority
          submittedAt := brdict.submitted_at
          waitedFor := brdict.waited_for
          reason := buildset.reason
          properties := buildset_properties
          sources := bsdata.sourcestamps.foldl
            (fun d ssdata =>
              dictInsert d ssdata.codebase
                ⟨ssdata, master.sourcestamp_changes ssdata.ssid⟩)
            [] }

/-- The step of `mergeReasons`'s loop: append a reason if it is non-empty and
not already collected. -/
def addReason (reasons : List String) (reason : String) : List String :=
  if reason != "" && !(reasons.contains reason) then reasons ++ [reason]
  else reasons

/-- The list of reasons collected by `BuildRequest.mergeReasons` over
`[self, *others]`, before joining. -/
def BuildRequest.mergeReasonsList (self : BuildRequestView)
    (others : List BuildRequestView) : List String :=
  (self :: others).foldl (fun reasons req => addReason reasons req.reason) []

/-- `BuildRequest.mergeReasons(self, others)`: the collected reasons joined
with `", "`. -/
def BuildRequest.mergeReasons (self : BuildRequestView)
    (others : List BuildRequestView) : String :=
  String.intercalate ", " (BuildRequest.mergeReasonsList self others)

/-! ## Helper lemmas -/

/-- A store with one empty buildset, no changes and no properties, used to
evaluate the theorems at concrete inputs. -/
def emptyMaster : Master where
  buildsets := fun _ => ⟨[]⟩
  sourcestamp_changes := fun _ => []
  buildset_properties := fun _ => []
  db_buildsets := fun _ => Option.none

theorem canBeCollapsed_of_same_buildset (master : Master) (a b : BrDict)
    (h : a.buildsetid = b.buildsetid) : canBeCollapsed master a b = true := by
  unfold canBeCollapsed
  rw [if_pos (beq_iff_eq.mpr h)]

theorem canBeCollapsed_of_ne_buildset_of_lt (master : Master)
    (new_br old_br : BrDict) (hbs : new_br.buildsetid ≠ old_br.buildsetid)
    (hid : new_br.buildrequestid < old_br.buildrequestid) :
    canBeCollapsed master new_br old_br = false := by
  unfold canBeCollapsed
  rw [if_neg (by simpa using hbs), if_pos hid]

theorem collapseFinalize_go (env : CollapseEnv) (pending : List Nat)
    (a : List Nat) (b : List (Nat × Nat)) :
    pending.foldl
      (fun acc brid =>
        if env.claimBuildRequests brid then
          (acc.1 ++ [brid], acc.2 ++ [(brid, SKIPPED)])
        else acc) (a, b)
    = (a ++ pending.filter (fun brid => env.claimBuildRequests brid),
       b ++ (pending.filter (fun brid => env.claimBuildRequests brid)).map
          (fun brid => (brid, SKIPPED))) := by
  induction pending generalizing a b with
  | nil => simp
  | cons x xs ih =>
    by_cases h : env.claimBuildRequests x
    · simp [List.foldl_cons, h, ih, List.filter_cons]
    · simp [List.foldl_cons, h, ih, List.filter_cons]

theorem collapseFinalize_eq (env : CollapseEnv) (pending : List Nat) :
    collapseFinalize env pending
      = (pending.filter (fun brid => env.claimBuildRequests brid),
         (pending.filter (fun brid => env.claimBuildRequests brid)).map
            (fun brid => (brid, SKIPPED))) := by
  unfold collapseFinalize
  simpa using collapseFinalize_go env pending [] []

/-! ## The claims -/

/-- C3: for every two requests whose buildset identifiers are equal,
`canBeCollapsed` returns true immediately, regardless of any other field
(including differing revisions and any state of the store). -/
theorem canBeCollapsed_same_buildset_short_circuit (master : Master)
    (new_br old_br : BrDict) (h : new_br.buildsetid = old_br.buildsetid) :
    canBeCollapsed master new_br old_br = true :=
  canBeCollapsed_of_same_buildset master new_br old_br h

/-- C3 witness: two requests of buildset 7 whose buildsets carry sourcestamps
with differing revisions still collapse. -/
theorem canBeCollapsed_same_buildset_short_circuit_witness :
    canBeCollapsed
      { buildsets := fun bsid =>
          ⟨[{ ssid := bsid, codebase := "main", repository := "X",
              branch := some "main", project := "P",
              revision := some (if bsid == 7 then "aaa" else "bbb"),
              patch := Option.none }]⟩
        sourcestamp_changes := fun _ => []
        buildset_properties := fun _ => []
        db_buildsets := fun _ => Option.none }
      ⟨11, 7, 5, 0⟩ ⟨10, 7, 5, 0⟩ = true :=
  canBeCollapsed_same_buildset_short_circuit _ _ _ rfl

/-- C9: for two distinct requests sharing a buildset identifier,
`canBeCollapsed` returns true in both argument orders: the same-buildset
short-circuit is evaluated before the identifier-ordering guard, so the
mutual-collapse protection does not apply to same-buildset pairs. -/
theorem canBeCollapsed_same_buildset_both_orders (master : Master)
    (a b : BrDict) (_hne : a.buildrequestid ≠ b.buildrequestid)
    (h : a.buildsetid = b.buildsetid) :
    canBeCollapsed master a b = true ∧ canBeCollapsed master b a = true :=
  ⟨canBeCollapsed_of_same_buildset master a b h,
   canBeCollapsed_of_same_buildset master b a h.symm⟩

/-- C9 witness: requests 10 and 11 of buildset 7 collapse in both orders, in
particular with the numerically smaller identifier in the new-request
position. -/
theorem canBeCollapsed_same_buildset_both_orders_witness :
    canBeCollapsed emptyMaster ⟨10, 7, 5, 0⟩ ⟨11, 7, 5, 0⟩ = true ∧
      canBeCollapsed emptyMaster ⟨11, 7, 5, 0⟩ ⟨10, 7, 5, 0⟩ = true :=
  canBeCollapsed_same_buildset_both_orders emptyMaster _ _ (by decide) rfl

/-- C2 counterexample: as stated ("whenever the new request's identifier is
numerically smaller than the old request's identifier, canBeCollapsed returns
false") the claim fails for a same-buildset pair: request 1 is numerically
smaller than request 2, both belong to buildset 7, and `canBeCollapsed`
returns true. -/
theorem canBeCollapsed_smaller_id_counterexample :
    (1 : Nat) < 2 ∧
      canBeCollapsed emptyMaster ⟨1, 7, 5, 0⟩ ⟨2, 7, 5, 0⟩ = true :=
  ⟨by decide, by decide⟩

/-- C2 (amended): whenever the two requests belong to different buildsets and
the new request's identifier is numerically smaller than the old request's
identifier, `canBeCollapsed` returns false. -/
theorem canBeCollapsed_newer_must_not_be_smaller (master : Master)
    (new_br old_br : BrDict) (hbs : new_br.buildsetid ≠ old_br.buildsetid)
    (hid : new_br.buildrequestid < old_br.buildrequestid) :
    canBeCollapsed master new_br old_br = false :=
  canBeCollapsed_of_ne_buildset_of_lt master new_br old_br hbs hid

/-- C2 witness: request 1 of buildset 3 cannot subsume request 2 of
buildset 4. -/
theorem canBeCollapsed_newer_must_not_be_smaller_witness :
    canBeCollapsed emptyMaster ⟨1, 3, 5, 0⟩ ⟨2, 4, 5, 0⟩ = false :=
  canBeCollapsed_newer_must_not_be_smaller emptyMaster _ _ (by decide)
    (by decide)

/-- C1: for every batch of new request identifiers,
`BuildRequestCollapser.collapse` returns exactly the identifiers of the
pending removal set (`collapsePhase1`) whose atomic claim attempt succeeded;
each returned identifier is completed with the `SKIPPED` result code, and an
identifier whose claim attempt fails is omitted from the returned list and
never completed. -/
theorem collapse_returns_exactly_claimed (env : CollapseEnv)
    (brids : List Nat) :
    (BuildRequestCollapser.collapse env brids).1
        = (collapsePhase1 env brids).filter
            (fun brid => env.claimBuildRequests brid)
    ∧ (BuildRequestCollapser.collapse env brids).2
        = ((collapsePhase1 env brids).filter
            (fun brid => env.claimBuildRequests brid)).map
              (fun brid => (brid, SKIPPED))
    ∧ ∀ brid, env.claimBuildRequests brid = false →
        brid ∉ (BuildRequestCollapser.collapse env brids).1
        ∧ ∀ res, (brid, res) ∉ (BuildRequestCollapser.collapse env brids).2 := by
  have h : BuildRequestCollapser.collapse env brids
      = ((collapsePhase1 env brids).filter
            (fun brid => env.claimBuildRequests brid),
         ((collapsePhase1 env brids).filter
            (fun brid => env.claimBuildRequests brid)).map
              (fun brid => (brid, SKIPPED))) :=
    collapseFinalize_eq env (collapsePhase1 env brids)
  refine ⟨by rw [h], by rw [h], ?_⟩
  intro brid hfail
  constructor
  · rw [h]
    intro hmem
    have := (List.mem_filter.mp hmem).2
    simp [hfail] at this
  · intro res
    rw [h]
    intro hmem
    rcases List.mem_map.mp hmem with ⟨x, hx, hxe⟩
    have hxb : x = brid := congrArg Prod.fst hxe
    have := (List.mem_filter.mp hx).2
    rw [hxb] at this
    simp [hfail] at this

theorem pyIsTrue_iff (v : PyValue) :
    pyIsTrue v = true ↔ v = PyValue.bool true := by
  cases v with
  | bool b => cases b <;> simp [pyIsTrue]
  | int n => simp [pyIsTrue]
  | str s => simp [pyIsTrue]
  | none => simp [pyIsTrue]

theorem mem_setInsert (s : List Nat) (x y : Nat) :
    y ∈ setInsert s x ↔ y ∈ s ∨ y = x := by
  unfold setInsert
  split
  · rename_i h
    constructor
    · exact fun hy => Or.inl hy
    · rintro (hy | rfl)
      · exact hy
      · exact h
  · simp

/-- The candidate scan for new request `brid` proposes request `x` for
removal: the builder and its collapse function exist, `x` is an unclaimed
sibling distinct from the new request itself, and the collapse function
returned the literal boolean `True` on the pair. -/
def proposedBy (env : CollapseEnv) (brid x : Nat) : Prop :=
  ∃ bldr fn,
    env.getBuilder (env.getBuildrequest brid).builderid = some bldr
    ∧ bldr.collapseRequestsFn = some fn
    ∧ ∃ u ∈ env.unclaimedBrs (env.getBuildrequest brid).builderid,
        u.buildrequestid = x
        ∧ x ≠ (env.getBuildrequest brid).buildrequestid
        ∧ fn (env.getBuildrequest brid) u = PyValue.bool true

theorem mem_candidateStep (br : BrDict) (fn : BrDict → BrDict → PyValue)
    (acc : List Nat) (u : BrDict) (x : Nat) :
    x ∈ candidateStep br fn acc u ↔
      x ∈ acc ∨ (u.buildrequestid = x ∧ x ≠ br.buildrequestid
        ∧ fn br u = PyValue.bool true) := by
  unfold candidateStep
  split
  · rename_i h
    have hub : u.buildrequestid = br.buildrequestid := by simpa using h
    constructor
    · exact Or.inl
    · rintro (hx | ⟨rfl, hne, _⟩)
      · exact hx
      · exact absurd hub hne
  · rename_i h
    have hub : u.buildrequestid ≠ br.buildrequestid := by simpa using h
    split
    · rename_i ht
      have hfn : fn br u = PyValue.bool true := (pyIsTrue_iff _).mp ht
      rw [mem_setInsert]
      constructor
      · rintro (hy | rfl)
        · exact Or.inl hy
        · exact Or.inr ⟨rfl, hub, hfn⟩
      · rintro (hy | ⟨rfl, _, _⟩)
        · exact Or.inl hy
        · exact Or.inr rfl
    · rename_i ht
      have hfn : fn br u ≠ PyValue.bool true := by
        intro hval
        exact ht ((pyIsTrue_iff _).mpr hval)
      constructor
      · exact Or.inl
      · rintro (hy | ⟨rfl, _, hval⟩)
        · exact hy
        · exact absurd hval hfn

theorem mem_foldl_candidateStep (br : BrDict) (fn : BrDict → BrDict → PyValue)
    (l : List BrDict) (acc : List Nat) (x : Nat) :
    x ∈ l.foldl (candidateStep br fn) acc ↔
      x ∈ acc ∨ ∃ u ∈ l, u.buildrequestid = x ∧ x ≠ br.buildrequestid
        ∧ fn br u = PyValue.bool true := by
  induction l generalizing acc with
  | nil => simp
  | cons u us ih =>
    rw [List.foldl_cons, ih, mem_candidateStep, List.exists_mem_cons_iff]
    tauto

theorem mem_collapseOneBrid (env : CollapseEnv) (acc : List Nat)
    (brid x : Nat) :
    x ∈ collapseOneBrid env acc brid ↔ x ∈ acc ∨ proposedBy env brid x := by
  simp only [collapseOneBrid]
  cases hb : env.getBuilder (env.getBuildrequest brid).builderid with
  | none => simp [proposedBy, hb]
  | some bldr =>
    cases hf : bldr.collapseRequestsFn with
    | none => simp [proposedBy, hb, hf]
    | some fn =>
      by_cases he :
          (env.unclaimedBrs (env.getBuildrequest brid).builderid).isEmpty
      · have hnil : env.unclaimedBrs (env.getBuildrequest brid).builderid
            = [] := by simpa using he
        simp [proposedBy, hb, hf, hnil]
      · simp [he, mem_foldl_candidateStep, proposedBy, hb, hf]

theorem mem_collapsePhase1_go (env : CollapseEnv) (brids : List Nat)
    (acc : List Nat) (x : Nat) :
    x ∈ brids.foldl (collapseOneBrid env) acc ↔
      x ∈ acc ∨ ∃ brid ∈ brids, proposedBy env brid x := by
  induction brids generalizing acc with
  | nil => simp
  | cons b bs ih =>
    rw [List.foldl_cons, ih, mem_collapseOneBrid, List.exists_mem_cons_iff]
    tauto

/-- C10: a candidate enters the pending removal set only when the configured
collapse function returns exactly the boolean `True` on the pair
(`canCollapse is True`); membership in `collapsePhase1` is characterised by
`proposedBy`, whose last conjunct demands the literal `True`, the identity
test accepts no other value, and in particular the truthy integer 1 is
rejected. -/
theorem collapsePhase1_requires_literal_true (env : CollapseEnv)
    (brids : List Nat) :
    (∀ x, x ∈ collapsePhase1 env brids ↔ ∃ brid ∈ brids, proposedBy env brid x)
    ∧ (∀ v, pyIsTrue v = true ↔ v = PyValue.bool true)
    ∧ pyIsTrue (PyValue.int 1) = false := by
  refine ⟨fun x => ?_, pyIsTrue_iff, rfl⟩
  unfold collapsePhase1
  rw [mem_collapsePhase1_go]
  simp

theorem mem_of_lookup_some {α : Type} {c : String} {v : α} :
    ∀ {l : List (String × α)}, List.lookup c l = some v → (c, v) ∈ l := by
  intro l
  induction l with
  | nil => intro h; simp [List.lookup] at h
  | cons p ps ih =>
    intro h
    rcases p with ⟨k, b⟩
    by_cases hk : c == k
    · have hck : c = k := by simpa using hk
      simp only [List.lookup, hk] at h
      have hbv : b = v := by simpa using h
      subst hbv
      subst hck
      exact List.mem_cons_self _ _
    · have hk' : (c == k) = false := by simpa using hk
      simp only [List.lookup, hk'] at h
      exact List.mem_cons_of_mem _ (ih h)

theorem canBeCollapsedCodebase_patch (master : Master) (s o : SourceStamp)
    (hp : s.patch.isSome ∨ o.patch.isSome) :
    canBeCollapsedCodebase master s o = false := by
  have hcond : (s.patch.isSome || o.patch.isSome) = true := by
    rcases hp with h | h <;> simp [h]
  simp [canBeCollapsedCodebase, hcond]

/-- C5: for every pair of requests with distinct buildsets where the
sourcestamp stored under some shared codebase on either side carries a
non-null patch, `canBeCollapsed` returns false, whatever the other fields. -/
theorem canBeCollapsed_patch_exclusion (master : Master)
    (new_br old_br : BrDict) (c : String) (s o : SourceStamp)
    (hbs : new_br.buildsetid ≠ old_br.buildsetid)
    (hs : List.lookup c (buildsetSources master new_br.buildsetid) = some s)
    (ho : List.lookup c (buildsetSources master old_br.buildsetid) = some o)
    (hp : s.patch.isSome ∨ o.patch.isSome) :
    canBeCollapsed master new_br old_br = false := by
  have hmem : (c, s) ∈ buildsetSources master new_br.buildsetid :=
    mem_of_lookup_some hs
  have hcheck : codebaseCheck master
      (buildsetSources master old_br.buildsetid) (c, s) = false := by
    unfold codebaseCheck
    rw [show List.lookup (c, s).1 (buildsetSources master old_br.buildsetid)
        = some o from ho]
    exact canBeCollapsedCodebase_patch master s o hp
  have hall : (buildsetSources master new_br.buildsetid).all
      (codebaseCheck master (buildsetSources master old_br.buildsetid))
      = false := by
    refine Bool.eq_false_iff.mpr (fun hall => ?_)
    have htrue := List.all_eq_true.mp hall _ hmem
    rw [hcheck] at htrue
    exact Bool.false_ne_true htrue
  unfold canBeCollapsed
  rw [if_neg (by simpa using hbs)]
  split
  · rfl
  · split
    · rfl
    · rw [if_pos (by simp [hall])]

/-- C4: the per-codebase loop of `canBeCollapsed`, on a codebase shared by the
two requests with repository, branch and project equal and no patch on either
side: if both sides' sourcestamps have at least one change the codebase is
equivalent whatever the changes are; if exactly one side has changes the
result is false; if neither side has changes the codebase is equivalent iff
the revisions are exactly equal. -/
theorem canBeCollapsedCodebase_changes_rule (master : Master)
    (s o : SourceStamp)
    (hrepo : s.repository = o.repository) (hbranch : s.branch = o.branch)
    (hproj : s.project = o.project) (hps : s.patch = Option.none)
    (hpo : o.patch = Option.none) :
    (master.sourcestamp_changes s.ssid ≠ [] →
        master.sourcestamp_changes o.ssid ≠ [] →
        canBeCollapsedCodebase master s o = true)
    ∧ (master.sourcestamp_changes s.ssid ≠ [] →
        master.sourcestamp_changes o.ssid = [] →
        canBeCollapsedCodebase master s o = false)
    ∧ (master.sourcestamp_changes s.ssid = [] →
        master.sourcestamp_changes o.ssid ≠ [] →
        canBeCollapsedCodebase master s o = false)
    ∧ (master.sourcestamp_changes s.ssid = [] →
        master.sourcestamp_changes o.ssid = [] →
        canBeCollapsedCodebase master s o = (s.revision == o.revision)) := by
  refine ⟨fun ha hb => ?_, fun ha hb => ?_, fun ha hb => ?_, fun ha hb => ?_⟩
  all_goals
    simp [canBeCollapsedCodebase, hrepo, hbranch, hproj, hps, hpo,
      List.isEmpty_iff, ha, hb]

/-- A sourcestamp with no changes and no patch, codebase `"main"`,
revision `"aaa"` (the R1 side of the spec's scenario). -/
def ssPlain : SourceStamp :=
  { ssid := 200, codebase := "main", repository := "X", branch := some "main",
    project := "P", revision := some "aaa", patch := Option.none }

/-- The same codebase at revision `"bbb"` with one change attached
(the R2 side of the spec's scenario). -/
def ssWithChange : SourceStamp :=
  { ssid := 100, codebase := "main", repository := "X", branch := some "main",
    project := "P", revision := some "bbb", patch := Option.none }

/-- Like `ssPlain` but carrying a patch. -/
def ssPatched : SourceStamp :=
  { ssid := 300, codebase := "main", repository := "X", branch := some "main",
    project := "P", revision := some "aaa",
    patch := some { level := 1, body := "diff", subdir := ".",
                    author := "a", comment := "c" } }

/-- Store for the scenario witnesses: buildset 3 holds `ssWithChange` (one
change on sourcestamp 100), buildset 4 holds `ssPlain` (no changes). -/
def changesMaster : Master where
  buildsets := fun bsid => if bsid == 3 then ⟨[ssWithChange]⟩ else ⟨[ssPlain]⟩
  sourcestamp_changes := fun ssid =>
    if ssid == 100 then [{ changeid := 1, author := "alice" }] else []
  buildset_properties := fun _ => []
  db_buildsets := fun _ => some ⟨"scheduler reason"⟩

/-- C4 witness, the spec's scenario 7 at the codebase level: one side has a
change, the other has none, so the codebase comparison fails even though
repository, branch and project agree. -/
theorem canBeCollapsedCodebase_changes_rule_witness :
    canBeCollapsedCodebase changesMaster ssWithChange ssPlain = false :=
  (canBeCollapsedCodebase_changes_rule changesMaster ssWithChange ssPlain
    rfl rfl rfl rfl rfl).2.1 (by decide) (by decide)

/-- Store for the patch witness: buildset 3 holds a patched sourcestamp,
buildset 4 the identical unpatched one. -/
def patchMaster : Master where
  buildsets := fun bsid => if bsid == 3 then ⟨[ssPatched]⟩ else ⟨[ssPlain]⟩
  sourcestamp_changes := fun _ => []
  buildset_properties := fun _ => []
  db_buildsets := fun _ => some ⟨"scheduler reason"⟩

/-- C5 witness: request 11 (buildset 3, patched sourcestamp) cannot collapse
request 10 (buildset 4, identical sourcestamp without the patch). -/
theorem canBeCollapsed_patch_exclusion_witness :
    canBeCollapsed patchMaster ⟨11, 3, 5, 0⟩ ⟨10, 4, 5, 0⟩ = false :=
  canBeCollapsed_patch_exclusion patchMaster ⟨11, 3, 5, 0⟩ ⟨10, 4, 5, 0⟩
    "main" ssPatched ssPlain (by decide) rfl rfl (Or.inl rfl)

/-- C6: the buildset-property comparison considers only properties whose
source is `"Scheduler"` and whose name is not literally `scheduler`: a
property failing the filter never changes the filtered mapping, membership in
the filtered mapping is exactly a `"Scheduler"`-sourced, non-`scheduler`-named
entry of the bag, and any inequality of the filtered mappings makes
`canBeCollapsed` return false. -/
theorem buildset_props_filtering :
    (∀ (bs_props : BuildsetProps) (e : String × String × String),
        e.1 = "scheduler" ∨ e.2.2 ≠ "Scheduler" →
        filter_buildset_props_for_collapsing (bs_props ++ [e])
          = filter_buildset_props_for_collapsing bs_props)
    ∧ (∀ (n v : String) (bs_props : BuildsetProps),
        (n, v) ∈ filter_buildset_props_for_collapsing bs_props ↔
          (n ≠ "scheduler" ∧ (n, v, "Scheduler") ∈ bs_props))
    ∧ (∀ (master : Master) (new_br old_br : BrDict),
        new_br.buildsetid ≠ old_br.buildsetid →
        schedulerPropsEq master new_br.buildsetid old_br.buildsetid = false →
        canBeCollapsed master new_br old_br = false) := by
  refine ⟨?_, ?_, ?_⟩
  · intro bs_props e he
    have hpe : (e.1 != "scheduler" && e.2.2 == "Scheduler") = false := by
      rcases he with h | h <;> simp [h]
    simp [filter_buildset_props_for_collapsing, List.filter_append,
      List.filter_cons, hpe]
  · intro n v bs_props
    simp only [filter_buildset_props_for_collapsing, List.mem_map,
      List.mem_filter]
    constructor
    · rintro ⟨⟨n', v', s'⟩, ⟨hmem, hp⟩, heq⟩
      simp only [Prod.mk.injEq] at heq
      obtain ⟨rfl, rfl⟩ := heq
      simp only [Bool.and_eq_true, bne_iff_ne, beq_iff_eq] at hp
      obtain ⟨hn, rfl⟩ := hp
      exact ⟨hn, hmem⟩
    · rintro ⟨hn, hmem⟩
      exact ⟨(n, v, "Scheduler"), ⟨hmem, by simp [hn]⟩, rfl⟩
  · intro master new_br old_br hbs hprops
    unfold canBeCollapsed
    rw [if_neg (by simpa using hbs)]
    split
    · rfl
    · split
      · rfl
      · split
        · rfl
        · simp [hprops]

/-- C7: `BuildRequest._make_br` fails with an assertion failure, never a
partially built view, exactly when the request references a buildset that does
not exist or the buildset has zero sourcestamps. -/
theorem make_br_assertion_failures (master : Master) (brid : Nat)
    (brdict : BuildRequestModel) :
    (∃ e, BuildRequest._make_br master brid brdict = Except.error e)
      ↔ (master.db_buildsets brdict.buildsetid = Option.none
          ∨ (master.buildsets brdict.buildsetid).sourcestamps = []) := by
  unfold BuildRequest._make_br
  cases hdb : master.db_buildsets brdict.buildsetid with
  | none => simp
  | some bs =>
    by_cases hss : (master.buildsets brdict.buildsetid).sourcestamps.isEmpty
    · have hnil : (master.buildsets brdict.buildsetid).sourcestamps = [] := by
        simpa [List.isEmpty_iff] using hss
      simp [hss, hnil]
    · have hne : (master.buildsets brdict.buildsetid).sourcestamps ≠ [] := by
        simpa [List.isEmpty_iff] using hss
      simp [hss, hne]

theorem mem_foldl_addReason (l : List String) (acc : List String)
    (x : String) :
    x ∈ l.foldl addReason acc ↔ x ∈ acc ∨ (x ≠ "" ∧ x ∈ l) := by
  induction l generalizing acc with
  | nil => simp
  | cons r rs ih =>
    rw [List.foldl_cons, ih]
    by_cases hr : r = ""
    · subst hr
      simp [addReason]
      tauto
    · by_cases hc : r ∈ acc
      · have hstep : addReason acc r = acc := by
          simp [addReason, hc]
        rw [hstep]
        have hxr : x = r → x ∈ acc := fun h => h ▸ hc
        simp only [List.mem_cons]
        tauto
      · have hstep : addReason acc r = acc ++ [r] := by
          simp [addReason, hr, hc]
        rw [hstep]
        have hxr : x = r → x ≠ "" := fun h => h ▸ hr
        simp only [List.mem_append, List.mem_singleton, List.mem_cons]
        tauto

theorem nodup_foldl_addReason (l : List String) (acc : List String)
    (h : acc.Nodup) : (l.foldl addReason acc).Nodup := by
  induction l generalizing acc with
  | nil => simpa
  | cons r rs ih =>
    rw [List.foldl_cons]
    apply ih
    unfold addReason
    split
    · rename_i hcond
      have hnc : r ∉ acc := by
        have := ((Bool.and_eq_true _ _).mp hcond).2
        simpa using this
      refine List.nodup_append.mpr ⟨h, List.nodup_singleton r, ?_⟩
      intro a ha hmem
      rw [List.mem_singleton] at hmem
      subst hmem
      exact hnc ha
    · exact h

theorem foldl_addReason_sublist (l : List String) (acc : List String) :
    ∃ t, l.foldl addReason acc = acc ++ t
      ∧ t.Sublist (l.filter (fun r => r != "")) := by
  induction l generalizing acc with
  | nil => exact ⟨[], by simp, by simp⟩
  | cons r rs ih =>
    rw [List.foldl_cons]
    by_cases hcond : (r != "" && !(acc.contains r)) = true
    · have hstep : addReason acc r = acc ++ [r] := by
        simp only [addReason, hcond, if_true]
      rw [hstep]
      obtain ⟨t, ht, hs⟩ := ih (acc ++ [r])
      refine ⟨r :: t, by simpa [List.append_assoc] using ht, ?_⟩
      have hr : (r != "") = true := ((Bool.and_eq_true _ _).mp hcond).1
      simp only [List.filter_cons, hr, if_true]
      exact List.Sublist.cons₂ r hs
    · have hcf : (r != "" && !(acc.contains r)) = false := by
        simpa using hcond
      have hstep : addReason acc r = acc := by
        simp only [addReason, hcf, Bool.false_eq_true, if_false]
      rw [hstep]
      obtain ⟨t, ht, hs⟩ := ih acc
      refine ⟨t, ht, hs.trans ?_⟩
      rw [List.filter_cons]
      split
      · exact List.Sublist.cons r (List.Sublist.refl _)
      · exact List.Sublist.refl _

/-- C8: `mergeReasons` joins with `", "` the list of reasons collected from
the primary request followed by the others in order; that list is
duplicate-free, contains exactly the non-empty reasons of the requests, and is
an order-preserving subsequence of the requests' non-empty reasons (empty
reasons and reasons already seen are skipped). -/
theorem mergeReasons_spec (self : BuildRequestView)
    (others : List BuildRequestView) :
    BuildRequest.mergeReasons self others
        = String.intercalate ", " (BuildRequest.mergeReasonsList self others)
    ∧ (BuildRequest.mergeReasonsList self others).Nodup
    ∧ (∀ r, r ∈ BuildRequest.mergeReasonsList self others ↔
        (r ≠ "" ∧ r ∈ (self :: others).map BuildRequestView.reason))
    ∧ (BuildRequest.mergeReasonsList self others).Sublist
        (((self :: others).map BuildRequestView.reason).filter
          (fun r => r != "")) := by
  have hfold : BuildRequest.mergeReasonsList self others
      = ((self :: others).map BuildRequestView.reason).foldl addReason [] := by
    unfold BuildRequest.mergeReasonsList
    rw [List.foldl_map]
  refine ⟨rfl, ?_, ?_, ?_⟩
  · rw [hfold]
    exact nodup_foldl_addReason _ _ List.nodup_nil
  · intro r
    rw [hfold, mem_foldl_addReason]
    simp
  · rw [hfold]
    obtain ⟨t, ht, hs⟩ := foldl_addReason_sublist
      ((self :: others).map BuildRequestView.reason) []
    rw [ht]
    simpa using hs
